import Mathlib

/-!
Verification of the geofence event engine
(`src/main/python/services/geofencing.py`).

The Python module is shallowly embedded: floats become real numbers,
`datetime` values become rationals (POSIX-style timestamps in seconds),
Python dicts become association lists (which preserve insertion order,
exactly like Python dicts) or functions to `Option`, and methods that
mutate the manager become functions returning the updated manager.
The fields `metadata : Dict[str, Any]` and `created_at : datetime` of
`GeofenceZone`, and `additional_data` of `GeofenceEvent`, are omitted:
they are opaque payloads that no modelled operation inspects.
-/

open scoped Classical

noncomputable section

namespace Geofence

/-- `Coordinates` dataclass: latitude/longitude pair (floats as reals). -/
structure Coordinates where
  latitude : ℝ
  longitude : ℝ

/-- `FenceType` enum. -/
inductive FenceType where
  | CIRCULAR
  | RECTANGULAR
  | POLYGON
deriving DecidableEq

/-- `TriggerType` enum. -/
inductive TriggerType where
  | ENTER
  | EXIT
  | DWELL
deriving DecidableEq

/-- `GeofenceZone` dataclass (metadata / created_at omitted, see header). -/
structure GeofenceZone where
  zone_id : String
  name : String
  fence_type : FenceType
  center : Coordinates
  radius : Option ℝ
  bounds : Option (List Coordinates)
  location_ids : List String
  triggers : List TriggerType

/-- `GeofenceZone.__post_init__`: the dataclass constructor with the
`None` defaults of `location_ids` and `triggers` resolved exactly as the
Python `__post_init__` does (`location_ids → []`,
`triggers → [TriggerType.ENTER]`); an explicitly supplied list — empty
or not — is kept as is. -/
def mkGeofenceZone (zone_id name : String) (fence_type : FenceType)
    (center : Coordinates) (radius : Option ℝ) (bounds : Option (List Coordinates))
    (location_ids : Option (List String)) (triggers : Option (List TriggerType)) :
    GeofenceZone :=
  { zone_id := zone_id
    name := name
    fence_type := fence_type
    center := center
    radius := radius
    bounds := bounds
    location_ids := location_ids.getD []
    triggers := triggers.getD [TriggerType.ENTER] }

/-- `GeofenceEvent` dataclass (additional_data omitted, see header). -/
structure GeofenceEvent where
  event_id : String
  zone_id : String
  trigger_type : TriggerType
  user_location : Coordinates
  timestamp : ℚ
  user_id : Option String

/-- One entry of `GeofenceManager.user_states`: the per-user dict
`{"current_zones": ..., "last_location": ..., "last_check": ...}`. -/
structure UserState where
  current_zones : List String
  last_location : Option Coordinates
  last_check : Option ℚ

/-- `GeofenceManager` state: `zones` is the insertion-ordered dict of
zones (association list keyed by zone id), `user_states` the per-user
state dict, `event_history` the append-only event log. -/
structure GeofenceManager where
  zones : List (String × GeofenceZone)
  user_states : String → Option UserState
  event_history : List GeofenceEvent

/-- A freshly constructed manager (`GeofenceManager.__init__`). -/
def emptyManager : GeofenceManager :=
  { zones := [], user_states := fun _ => none, event_history := [] }

/-! ## GeoUtils -/

/-- `math.radians`. -/
def radians (x : ℝ) : ℝ := x * Real.pi / 180

/-- `math.atan2` (quadrant-aware arctangent). -/
def atan2 (y x : ℝ) : ℝ :=
  if 0 < x then Real.arctan (y / x)
  else if x < 0 then
    (if 0 ≤ y then Real.arctan (y / x) + Real.pi else Real.arctan (y / x) - Real.pi)
  else
    (if 0 < y then Real.pi / 2 else if y < 0 then -(Real.pi / 2) else 0)

/-- `GeoUtils.haversine_distance`: great-circle distance in meters on a
sphere of radius 6 371 000 m. -/
def haversine_distance (coord1 coord2 : Coordinates) : ℝ :=
  let R : ℝ := 6371000
  let lat1_rad := radians coord1.latitude
  let lat2_rad := radians coord2.latitude
  let delta_lat := radians (coord2.latitude - coord1.latitude)
  let delta_lon := radians (coord2.longitude - coord1.longitude)
  let a := Real.sin (delta_lat / 2) ^ 2 +
    Real.cos lat1_rad * Real.cos lat2_rad * Real.sin (delta_lon / 2) ^ 2
  let c := 2 * atan2 (Real.sqrt a) (Real.sqrt (1 - a))
  R * c

/-- `GeoUtils.point_in_circle`: `distance <= radius`. -/
def point_in_circle (point center : Coordinates) (radius : ℝ) : Bool :=
  decide (haversine_distance point center ≤ radius)

/-- `GeoUtils.point_in_rectangle`. -/
def point_in_rectangle (point : Coordinates) (bounds : List Coordinates) : Bool :=
  if h : bounds.length ≠ 2 then false
  else
    let min_lat := min ((bounds.get ⟨0, by omega⟩).latitude) ((bounds.get ⟨1, by omega⟩).latitude)
    let max_lat := max ((bounds.get ⟨0, by omega⟩).latitude) ((bounds.get ⟨1, by omega⟩).latitude)
    let min_lon := min ((bounds.get ⟨0, by omega⟩).longitude) ((bounds.get ⟨1, by omega⟩).longitude)
    let max_lon := max ((bounds.get ⟨0, by omega⟩).longitude) ((bounds.get ⟨1, by omega⟩).longitude)
    decide (min_lat ≤ point.latitude ∧ point.latitude ≤ max_lat ∧
      min_lon ≤ point.longitude ∧ point.longitude ≤ max_lon)

/-- One step of the ray-casting loop of `GeoUtils.point_in_polygon`:
the body `for i in range(1, n + 1)` acting on one edge `(p1, p2)` and
the running `inside` flag.  When the three guards hold, `p1y ≠ p2y` is
forced (the first two guards are contradictory otherwise), so `xinters`
is always freshly assigned before it is read, as in the source. -/
def pipStep (x y : ℝ) (inside : Bool) (edge : Coordinates × Coordinates) : Bool :=
  let p1x := edge.1.longitude
  let p1y := edge.1.latitude
  let p2x := edge.2.longitude
  let p2y := edge.2.latitude
  if y > min p1y p2y then
    if y ≤ max p1y p2y then
      if x ≤ max p1x p2x then
        let xinters := (y - p1y) * (p2x - p1x) / (p2y - p1y) + p1x
        if p1x = p2x ∨ x ≤ xinters then !inside else inside
      else inside
    else inside
  else inside

/-- `GeoUtils.point_in_polygon` (ray casting, even-odd rule): the loop
walks the edges `(bounds[i-1], bounds[i % n])` for `i = 1..n`, i.e. the
pairing of `bounds` with its rotation by one. -/
def point_in_polygon (point : Coordinates) (bounds : List Coordinates) : Bool :=
  if bounds.length < 3 then false
  else
    (bounds.zip (bounds.drop 1 ++ bounds.take 1)).foldl
      (pipStep point.longitude point.latitude) false

/-! ## GeofenceManager operations -/

/-- `GeofenceManager.create_zone`: duplicate-id check, then the two
`ValueError` validations (Python truthiness: `not zone.radius` is true
for `None` and `0.0`; `not zone.bounds` for `None` and `[]`); the raised
errors are caught and turned into `False` with the manager unchanged. -/
def create_zone (m : GeofenceManager) (zone : GeofenceZone) : Bool × GeofenceManager :=
  if zone.zone_id ∈ m.zones.map Prod.fst then (false, m)
  else if zone.fence_type = FenceType.CIRCULAR ∧
      (zone.radius = none ∨ zone.radius = some 0) then (false, m)
  else if (zone.fence_type = FenceType.RECTANGULAR ∨ zone.fence_type = FenceType.POLYGON) ∧
      (zone.bounds = none ∨ zone.bounds = some []) then (false, m)
  else (true, { m with zones := m.zones ++ [(zone.zone_id, zone)] })

/-- `GeofenceManager.delete_zone`. -/
def delete_zone (m : GeofenceManager) (zone_id : String) : Bool × GeofenceManager :=
  if zone_id ∈ m.zones.map Prod.fst then
    (true, { m with zones := m.zones.eraseP (fun kz => kz.1 == zone_id) })
  else (false, m)

/-- `GeofenceManager.get_zone` (`dict.get`). -/
def get_zone (m : GeofenceManager) (zone_id : String) : Option GeofenceZone :=
  m.zones.lookup zone_id

/-- `GeofenceManager.list_zones`. -/
def list_zones (m : GeofenceManager) : List GeofenceZone :=
  m.zones.map Prod.snd

/-- `GeofenceManager._is_point_in_zone`.  A circular zone whose `radius`
is `None` (resp. a rectangular/polygonal zone with `bounds = None`)
would raise a `TypeError` in Python; such zones are never admitted by
`create_zone`, and the model returns `false` on that dead branch. -/
def is_point_in_zone (point : Coordinates) (zone : GeofenceZone) : Bool :=
  match zone.fence_type with
  | FenceType.CIRCULAR =>
    match zone.radius with
    | some r => point_in_circle point zone.center r
    | none => false
  | FenceType.RECTANGULAR =>
    match zone.bounds with
    | some bs => point_in_rectangle point bs
    | none => false
  | FenceType.POLYGON =>
    match zone.bounds with
    | some bs => point_in_polygon point bs
    | none => false

/-- The decimal rendering of `current_time.timestamp()` used inside the
f-string event ids. -/
def timeString (t : ℚ) : String := toString t

/-- The enter event built by `check_location`
(`event_id = f"{user_id}_{zone.zone_id}_{current_time.timestamp()}"`). -/
def enterEvent (user_id : String) (zone : GeofenceZone) (location : Coordinates)
    (t : ℚ) : GeofenceEvent :=
  { event_id := user_id ++ "_" ++ zone.zone_id ++ "_" ++ timeString t
    zone_id := zone.zone_id
    trigger_type := TriggerType.ENTER
    user_location := location
    timestamp := t
    user_id := some user_id }

/-- The exit event built by `check_location`
(`event_id = f"{user_id}_{zone_id}_{current_time.timestamp()}_exit"`). -/
def exitEvent (user_id zone_id : String) (location : Coordinates) (t : ℚ) :
    GeofenceEvent :=
  { event_id := user_id ++ "_" ++ zone_id ++ "_" ++ timeString t ++ "_exit"
    zone_id := zone_id
    trigger_type := TriggerType.EXIT
    user_location := location
    timestamp := t
    user_id := some user_id }

/-- The user state looked up (or lazily initialised) at the top of
`check_location`. -/
def userStateOrInit (m : GeofenceManager) (user_id : String) : UserState :=
  (m.user_states user_id).getD
    { current_zones := [], last_location := none, last_check := none }

/-- The zones of `m` containing `point`, in registry (insertion) order:
the sub-list of the first loop of `check_location` that takes the
`is_inside` branch. -/
def insideZones (m : GeofenceManager) (point : Coordinates) :
    List (String × GeofenceZone) :=
  m.zones.filter (fun kz => is_point_in_zone point kz.2)

/-- The `current_zones` set built by the first loop of `check_location`
(as the insertion-ordered list of ids). -/
def currentZonesOf (m : GeofenceManager) (point : Coordinates) : List String :=
  (insideZones m point).map Prod.fst

/-- The enter events emitted by the first loop of `check_location`, in
registry order. -/
def enterEventsOf (m : GeofenceManager) (user_id : String) (location : Coordinates)
    (t : ℚ) (previous_zones : List String) : List GeofenceEvent :=
  ((insideZones m location).filter
      (fun kz => decide (kz.1 ∉ previous_zones ∧ TriggerType.ENTER ∈ kz.2.triggers))).map
    (fun kz => enterEvent user_id kz.2 location t)

/-- The exit events emitted by the second loop of `check_location`:
for each previously occupied zone id that is no longer occupied, an exit
event is emitted only when the zone still exists (`zones.get`) and its
triggers include `EXIT`. -/
def exitEventsOf (m : GeofenceManager) (user_id : String) (location : Coordinates)
    (t : ℚ) (previous_zones current_zones : List String) : List GeofenceEvent :=
  previous_zones.filterMap (fun zid =>
    if zid ∈ current_zones then none
    else
      match m.zones.lookup zid with
      | none => none
      | some zone =>
        if TriggerType.EXIT ∈ zone.triggers then
          some (exitEvent user_id zid location t)
        else none)

/-- `GeofenceManager.check_location`, with the clock reading
(`datetime.now()`) passed explicitly.  Returns the emitted events and
the updated manager (events appended to the history in emission order —
enters first, then exits — and the user state overwritten). -/
def check_location (m : GeofenceManager) (user_id : String) (location : Coordinates)
    (current_time : ℚ) : List GeofenceEvent × GeofenceManager :=
  let previous_zones := (userStateOrInit m user_id).current_zones
  let current_zones := currentZonesOf m location
  let events := enterEventsOf m user_id location current_time previous_zones ++
    exitEventsOf m user_id location current_time previous_zones current_zones
  (events,
    { m with
      event_history := m.event_history ++ events
      user_states := fun u =>
        if u = user_id then
          some { current_zones := current_zones
                 last_location := some location
                 last_check := some current_time }
        else m.user_states u })

/-- `GeofenceManager.get_user_current_zones`. -/
def get_user_current_zones (m : GeofenceManager) (user_id : String) : List String :=
  match m.user_states user_id with
  | some st => st.current_zones
  | none => []

/-- `GeofenceManager.get_nearby_zones`: every zone whose *effective*
distance (for circles: distance to the boundary, `max 0 (d - radius)`;
otherwise the center distance) is within `max_distance` is collected,
paired with its *center* distance, and the list is sorted ascending by
that paired distance (`nearby.sort(key=lambda x: x[1])`). -/
def get_nearby_zones (m : GeofenceManager) (location : Coordinates)
    (max_distance : ℝ) : List (GeofenceZone × ℝ) :=
  let nearby := m.zones.filterMap (fun kz =>
    let distance := haversine_distance location kz.2.center
    let effective_distance :=
      if kz.2.fence_type = FenceType.CIRCULAR then
        max 0 (distance - kz.2.radius.getD 0)
      else distance
    if effective_distance ≤ max_distance then some (kz.2, distance) else none)
  nearby.insertionSort (fun a b => a.2 ≤ b.2)

/-- Python truthiness of an `Optional[str]` filter argument: `None` and
the empty string are falsy. -/
def strTruthy : Option String → Bool
  | none => false
  | some s => !(s == "")

/-- `GeofenceManager.get_event_history`, with the clock reading passed
explicitly: `cutoff = now - timedelta(hours=hours)`, events strictly
older than the cutoff are skipped, and the optional (truthy) user / zone
filters are applied. -/
def get_event_history (m : GeofenceManager) (now : ℚ) (user_id : Option String)
    (zone_id : Option String) (hours : ℤ) : List GeofenceEvent :=
  let cutoff_time := now - (hours : ℚ) * 3600
  m.event_history.filter (fun e =>
    !(decide (e.timestamp < cutoff_time)) &&
    (!(strTruthy user_id) || e.user_id == user_id) &&
    (!(strTruthy zone_id) || (some e.zone_id == zone_id)))

/-! ## Concrete values of the haversine distance -/

theorem atan2_diag {v : ℝ} (hv : 0 < v) : atan2 v v = Real.pi / 4 := by
  rw [atan2, if_pos hv, div_self (ne_of_gt hv), Real.arctan_one]

theorem atan2_one_zero : atan2 1 0 = Real.pi / 2 := by
  rw [atan2, if_neg (lt_irrefl 0), if_neg (lt_irrefl 0), if_pos zero_lt_one]

/-- The distance from any point to itself is zero. -/
theorem haversine_self (c : Coordinates) : haversine_distance c c = 0 := by
  simp [haversine_distance, radians, atan2, Real.arctan_zero, zero_lt_one]

/-- Exact distance for a quarter turn along the equator. -/
theorem haversine_equator90 :
    haversine_distance ⟨0, 90⟩ ⟨0, 0⟩ = 6371000 * Real.pi / 2 := by
  have h0 : radians ((0:ℝ) - 0) = 0 := by rw [radians]; ring
  have hc : radians (0:ℝ) = 0 := by rw [radians]; ring
  have hld : radians ((0:ℝ) - 90) / 2 = -(Real.pi / 4) := by rw [radians]; ring
  have hs2 : Real.sin (radians ((0:ℝ) - 90) / 2) ^ 2 = 1 / 2 := by
    rw [hld, Real.sin_neg, neg_sq, Real.sin_pi_div_four, div_pow,
      Real.sq_sqrt (by norm_num : (0:ℝ) ≤ 2)]
    norm_num
  simp only [haversine_distance, h0, hc, hs2, Real.sin_zero, Real.cos_zero]
  norm_num
  rw [atan2_diag (by positivity : (0:ℝ) < (Real.sqrt 2)⁻¹)]
  ring

/-- Exact distance for half a turn along the equator. -/
theorem haversine_equator180 :
    haversine_distance ⟨0, 180⟩ ⟨0, 0⟩ = 6371000 * Real.pi := by
  have h0 : radians ((0:ℝ) - 0) = 0 := by rw [radians]; ring
  have hc : radians (0:ℝ) = 0 := by rw [radians]; ring
  have hs2 : Real.sin (radians ((0:ℝ) - 180) / 2) ^ 2 = 1 := by
    rw [show radians ((0:ℝ) - 180) / 2 = -(Real.pi / 2) by rw [radians]; ring,
      Real.sin_neg, neg_sq, Real.sin_pi_div_two]
    norm_num
  simp only [haversine_distance, h0, hc, hs2, Real.sin_zero, Real.cos_zero]
  norm_num
  rw [atan2_one_zero]
  ring

/-! ## Structural lemmas about `check_location` -/

theorem check_location_fst (m : GeofenceManager) (u : String) (p : Coordinates) (t : ℚ) :
    (check_location m u p t).1 =
      enterEventsOf m u p t (userStateOrInit m u).current_zones ++
      exitEventsOf m u p t (userStateOrInit m u).current_zones (currentZonesOf m p) := rfl

theorem check_location_zones (m : GeofenceManager) (u : String) (p : Coordinates) (t : ℚ) :
    (check_location m u p t).2.zones = m.zones := rfl

theorem check_location_history (m : GeofenceManager) (u : String) (p : Coordinates) (t : ℚ) :
    (check_location m u p t).2.event_history = m.event_history ++ (check_location m u p t).1 := rfl

theorem check_location_user_states (m : GeofenceManager) (u : String) (p : Coordinates)
    (t : ℚ) (u' : String) :
    (check_location m u p t).2.user_states u' =
      if u' = u then
        some { current_zones := currentZonesOf m p
               last_location := some p
               last_check := some t }
      else m.user_states u' := rfl

theorem enterEventsOf_mem {m : GeofenceManager} {u : String} {p : Coordinates} {t : ℚ}
    {prev : List String} {e : GeofenceEvent} :
    e ∈ enterEventsOf m u p t prev ↔
      ∃ kz, kz ∈ insideZones m p ∧ kz.1 ∉ prev ∧ TriggerType.ENTER ∈ kz.2.triggers ∧
        e = enterEvent u kz.2 p t := by
  simp only [enterEventsOf, List.mem_map, List.mem_filter, decide_eq_true_eq]
  constructor
  · rintro ⟨kz, ⟨hmem, hnp, htr⟩, he⟩
    exact ⟨kz, hmem, hnp, htr, he.symm⟩
  · rintro ⟨kz, hmem, hnp, htr, he⟩
    exact ⟨kz, ⟨hmem, hnp, htr⟩, he.symm⟩

theorem exitEventsOf_mem {m : GeofenceManager} {u : String} {p : Coordinates} {t : ℚ}
    {prev cur : List String} {e : GeofenceEvent} :
    e ∈ exitEventsOf m u p t prev cur ↔
      ∃ zid zone, zid ∈ prev ∧ zid ∉ cur ∧ m.zones.lookup zid = some zone ∧
        TriggerType.EXIT ∈ zone.triggers ∧ e = exitEvent u zid p t := by
  simp only [exitEventsOf, List.mem_filterMap]
  constructor
  · rintro ⟨zid, hzid, hf⟩
    by_cases hc : zid ∈ cur
    · simp [hc] at hf
    · simp only [if_neg hc] at hf
      cases hl : m.zones.lookup zid with
      | none => simp [hl] at hf
      | some zone =>
        simp only [hl] at hf
        by_cases ht : TriggerType.EXIT ∈ zone.triggers
        · simp only [if_pos ht, Option.some.injEq] at hf
          exact ⟨zid, zone, hzid, hc, hl, ht, hf.symm⟩
        · simp [ht] at hf
  · rintro ⟨zid, zone, hzid, hc, hl, ht, he⟩
    exact ⟨zid, hzid, by simp [if_neg hc, hl, if_pos ht, he]⟩

theorem enterEventsOf_trigger {m : GeofenceManager} {u : String} {p : Coordinates} {t : ℚ}
    {prev : List String} {e : GeofenceEvent} (h : e ∈ enterEventsOf m u p t prev) :
    e.trigger_type = TriggerType.ENTER := by
  obtain ⟨kz, -, -, -, he⟩ := enterEventsOf_mem.mp h
  rw [he]; rfl

theorem exitEventsOf_trigger {m : GeofenceManager} {u : String} {p : Coordinates} {t : ℚ}
    {prev cur : List String} {e : GeofenceEvent} (h : e ∈ exitEventsOf m u p t prev cur) :
    e.trigger_type = TriggerType.EXIT := by
  obtain ⟨zid, zone, -, -, -, -, he⟩ := exitEventsOf_mem.mp h
  rw [he]; rfl

/-- Claim C5: reporting the identical position twice for the same
subject, with no registry change in between, emits zero events on the
second call and leaves the subject's current-zone set unchanged. -/
theorem C5_idempotent_report (m : GeofenceManager) (u : String) (p : Coordinates)
    (t1 t2 : ℚ) :
    (check_location (check_location m u p t1).2 u p t2).1 = [] ∧
    get_user_current_zones (check_location (check_location m u p t1).2 u p t2).2 u =
      get_user_current_zones (check_location m u p t1).2 u := by
  set m1 := (check_location m u p t1).2 with hm1
  have hzones : m1.zones = m.zones := rfl
  have hinside : insideZones m1 p = insideZones m p := rfl
  have hprev : (userStateOrInit m1 u).current_zones = currentZonesOf m p := by
    simp [userStateOrInit, hm1, check_location_user_states]
  have hcur : currentZonesOf m1 p = currentZonesOf m p := rfl
  constructor
  · rw [check_location_fst]
    have henter : enterEventsOf m1 u p t2 (userStateOrInit m1 u).current_zones = [] := by
      rw [enterEventsOf]
      apply List.map_eq_nil_iff.mpr
      apply List.filter_eq_nil_iff.mpr
      intro kz hk
      simp only [decide_eq_true_eq, not_and]
      intro hnp
      exact absurd (List.mem_map.mpr ⟨kz, by rw [hinside] at hk; exact hk, rfl⟩)
        (by rw [hprev] at hnp; exact hnp)
    have hexit : exitEventsOf m1 u p t2 (userStateOrInit m1 u).current_zones
        (currentZonesOf m1 p) = [] := by
      rw [exitEventsOf]
      apply List.filterMap_eq_nil_iff.mpr
      intro zid hzid
      rw [hprev] at hzid
      rw [if_pos (by rw [hcur]; exact hzid)]
    rw [henter, hexit]
    rfl
  · have h1 : m1.user_states u =
        some { current_zones := currentZonesOf m p
               last_location := some p
               last_check := some t1 } := by
      rw [hm1, check_location_user_states, if_pos rfl]
    simp [get_user_current_zones, check_location_user_states, hcur, h1]

/-- Claim C6: within a single `check_location` call, every emitted
Enter event precedes every emitted Exit event — the returned list is
exactly its Enter part followed by its Exit part — and the events are
appended to the history log in exactly that order. -/
theorem C6_enters_precede_exits (m : GeofenceManager) (u : String) (p : Coordinates)
    (t : ℚ) :
    (check_location m u p t).1 =
      ((check_location m u p t).1.filter
        (fun e => e.trigger_type == TriggerType.ENTER)) ++
      ((check_location m u p t).1.filter
        (fun e => e.trigger_type == TriggerType.EXIT)) ∧
    (check_location m u p t).2.event_history = m.event_history ++ (check_location m u p t).1 := by
  refine ⟨?_, check_location_history m u p t⟩
  rw [check_location_fst, List.filter_append, List.filter_append]
  have he1 : (enterEventsOf m u p t (userStateOrInit m u).current_zones).filter
      (fun e => e.trigger_type == TriggerType.ENTER) =
      enterEventsOf m u p t (userStateOrInit m u).current_zones := by
    apply List.filter_eq_self.mpr
    intro e he
    simp [enterEventsOf_trigger he]
  have he2 : (enterEventsOf m u p t (userStateOrInit m u).current_zones).filter
      (fun e => e.trigger_type == TriggerType.EXIT) = [] := by
    apply List.filter_eq_nil_iff.mpr
    intro e he
    simp [enterEventsOf_trigger he]
  have hx1 : (exitEventsOf m u p t (userStateOrInit m u).current_zones
      (currentZonesOf m p)).filter (fun e => e.trigger_type == TriggerType.ENTER) = [] := by
    apply List.filter_eq_nil_iff.mpr
    intro e he
    simp [exitEventsOf_trigger he]
  have hx2 : (exitEventsOf m u p t (userStateOrInit m u).current_zones
      (currentZonesOf m p)).filter (fun e => e.trigger_type == TriggerType.EXIT) =
      exitEventsOf m u p t (userStateOrInit m u).current_zones (currentZonesOf m p) := by
    apply List.filter_eq_self.mpr
    intro e he
    simp [exitEventsOf_trigger he]
  rw [he1, he2, hx1, hx2, List.append_nil, List.nil_append]

/-- Claim C8: circle containment is boundary-inclusive — for a circle
with positive radius, a point at distance exactly the radius is inside,
and a point strictly farther than the radius is outside. -/
theorem C8_circle_boundary_inclusive (point center : Coordinates) (radius : ℝ)
    (hr : 0 < radius) :
    (haversine_distance point center = radius →
      point_in_circle point center radius = true) ∧
    (radius < haversine_distance point center →
      point_in_circle point center radius = false) := by
  constructor
  · intro h
    simp only [point_in_circle, decide_eq_true_eq]
    exact le_of_eq h
  · intro h
    simp only [point_in_circle, decide_eq_false_iff_not]
    exact not_le.mpr h

/-- Witness for C8, at a point whose distance to the center is exactly
the (positive) radius `6371000·π/2`. -/
theorem C8_circle_boundary_inclusive_witness :
    (0:ℝ) < 6371000 * Real.pi / 2 ∧
    point_in_circle ⟨0, 90⟩ ⟨0, 0⟩ (6371000 * Real.pi / 2) = true :=
  ⟨by positivity,
   (C8_circle_boundary_inclusive ⟨0, 90⟩ ⟨0, 0⟩ (6371000 * Real.pi / 2)
     (by positivity)).1 haversine_equator90⟩

/-- A circular zone with a *negative* radius, used to refute claim C2:
Python's validation is `not zone.radius`, which only catches `None` and
`0`, so a negative radius passes. -/
def C2zone : GeofenceZone :=
  { zone_id := "neg"
    name := "negative radius"
    fence_type := FenceType.CIRCULAR
    center := ⟨0, 0⟩
    radius := some (-1)
    bounds := none
    location_ids := []
    triggers := [TriggerType.ENTER] }

/-- Counterexample to claim C2: a circular zone with radius `-1 ≤ 0` is
accepted by `create_zone` and is observable through both `get_zone` and
`list_zones`. -/
theorem C2_counterexample :
    (create_zone emptyManager C2zone).1 = true ∧
    get_zone (create_zone emptyManager C2zone).2 "neg" = some C2zone ∧
    list_zones (create_zone emptyManager C2zone).2 = [C2zone] := by
  refine ⟨?_, ?_, ?_⟩ <;>
    simp [create_zone, emptyManager, C2zone, get_zone, list_zones, List.lookup]

/-- Claim C2 amended: `create_zone` rejects a circular zone exactly when
its radius is *missing or zero* (Python falsiness of `zone.radius`), and
then leaves the registry completely unchanged; a negative radius is not
rejected. -/
theorem C2_create_zone_amended (m : GeofenceManager) (zone : GeofenceZone)
    (hc : zone.fence_type = FenceType.CIRCULAR)
    (hr : zone.radius = none ∨ zone.radius = some 0) :
    create_zone m zone = (false, m) := by
  rw [create_zone]
  by_cases hdup : zone.zone_id ∈ m.zones.map Prod.fst
  · rw [if_pos hdup]
  · rw [if_neg hdup, if_pos ⟨hc, hr⟩]

/-- Witness for the amended C2: a circular zone with radius `0` is
rejected and nothing is stored. -/
theorem C2_create_zone_witness :
    create_zone emptyManager
      (mkGeofenceZone "z" "z" FenceType.CIRCULAR ⟨0, 0⟩ (some 0) none none none) =
      (false, emptyManager) :=
  C2_create_zone_amended _ _ rfl (Or.inr rfl)

/-- A polygon zone with a single vertex, used to refute claim C3: the
validation `not zone.bounds` only rejects `None` and the empty list. -/
def C3zone : GeofenceZone :=
  { zone_id := "poly1"
    name := "degenerate polygon"
    fence_type := FenceType.POLYGON
    center := ⟨0, 0⟩
    radius := none
    bounds := some [⟨0, 0⟩]
    location_ids := []
    triggers := [] }

/-- Counterexample to claim C3: a polygon whose vertex sequence has one
single coordinate is accepted by `create_zone` and stored. -/
theorem C3_counterexample :
    (create_zone emptyManager C3zone).1 = true ∧
    get_zone (create_zone emptyManager C3zone).2 "poly1" = some C3zone := by
  constructor <;>
    simp [create_zone, emptyManager, C3zone, get_zone, List.lookup]

/-- Claim C3 amended: `create_zone` rejects a rectangular or polygonal
zone exactly when its bounds are missing or empty, leaving the registry
unchanged; degenerate non-empty bounds (a 1- or 2-vertex polygon, a
box with other than 2 points) are admitted — but the containment tests
themselves return `false` on such degenerate bounds, so no containment
is ever derived from them. -/
theorem C3_degenerate_bounds_amended :
    (∀ (m : GeofenceManager) (zone : GeofenceZone),
      (zone.fence_type = FenceType.RECTANGULAR ∨ zone.fence_type = FenceType.POLYGON) →
      (zone.bounds = none ∨ zone.bounds = some []) →
      create_zone m zone = (false, m)) ∧
    (∀ (p : Coordinates) (bounds : List Coordinates),
      bounds.length < 3 → point_in_polygon p bounds = false) ∧
    (∀ (p : Coordinates) (bounds : List Coordinates),
      bounds.length ≠ 2 → point_in_rectangle p bounds = false) := by
  refine ⟨?_, ?_, ?_⟩
  · intro m zone hf hb
    rw [create_zone]
    by_cases hdup : zone.zone_id ∈ m.zones.map Prod.fst
    · rw [if_pos hdup]
    · have hnc : ¬(zone.fence_type = FenceType.CIRCULAR ∧
          (zone.radius = none ∨ zone.radius = some 0)) := by
        rintro ⟨h, -⟩
        rcases hf with h' | h' <;> rw [h'] at h <;> exact FenceType.noConfusion h
      rw [if_neg hdup, if_neg hnc, if_pos ⟨hf, hb⟩]
  · intro p bounds h
    rw [point_in_polygon, if_pos h]
  · intro p bounds h
    rw [point_in_rectangle, dif_pos h]

/-- Witness for the amended C3: an empty-bounds polygon is rejected, and
the containment tests return `false` on a 1-vertex bounds list. -/
theorem C3_degenerate_bounds_witness :
    create_zone emptyManager
      (mkGeofenceZone "p" "p" FenceType.POLYGON ⟨0, 0⟩ none (some []) none none) =
      (false, emptyManager) ∧
    point_in_polygon ⟨0, 0⟩ [⟨0, 0⟩] = false ∧
    point_in_rectangle ⟨0, 0⟩ [⟨0, 0⟩] = false :=
  ⟨C3_degenerate_bounds_amended.1 _ _ (Or.inr rfl) (Or.inr rfl),
   C3_degenerate_bounds_amended.2.1 _ _ (by simp),
   C3_degenerate_bounds_amended.2.2 _ _ (by simp)⟩

theorem lookup_eq_none_iff {l : List (String × GeofenceZone)} {k : String} :
    l.lookup k = none ↔ k ∉ l.map Prod.fst := by
  induction l with
  | nil => simp [List.lookup]
  | cons kz rest ih =>
    obtain ⟨a, b⟩ := kz
    by_cases h : k = a
    · subst h
      simp [List.lookup]
    · simp [List.lookup, beq_false_of_ne h, ih, h]

/-- Claim C7: deleting a region never touches the event history or the
per-subject states (no synthetic Exit, no history rewriting); and a
position report against a registry that no longer holds a region emits
no Exit event for that region and drops it from the subject's
current-zone set. -/
theorem C7_deleted_zone_no_exit (m : GeofenceManager) (zid : String) (u : String)
    (p : Coordinates) (t : ℚ) :
    (delete_zone m zid).2.event_history = m.event_history ∧
    (delete_zone m zid).2.user_states = m.user_states ∧
    (m.zones.lookup zid = none →
      (∀ e ∈ (check_location m u p t).1,
        e.trigger_type = TriggerType.EXIT → e.zone_id ≠ zid) ∧
      zid ∉ get_user_current_zones (check_location m u p t).2 u) := by
  refine ⟨?_, ?_, ?_⟩
  · rw [delete_zone]
    split <;> rfl
  · rw [delete_zone]
    split <;> rfl
  · intro hnone
    constructor
    · intro e he htrig
      rw [check_location_fst, List.mem_append] at he
      rcases he with he | he
      · have h1 := enterEventsOf_trigger he
        rw [htrig] at h1
        exact TriggerType.noConfusion h1
      · obtain ⟨zid', zone, -, -, hl, -, he_eq⟩ := exitEventsOf_mem.mp he
        intro hzz
        rw [he_eq] at hzz
        have : zid' = zid := hzz
        rw [this, hnone] at hl
        exact Option.noConfusion hl
    · intro hmem
      have hcz : zid ∈ currentZonesOf m p := by
        have : get_user_current_zones (check_location m u p t).2 u = currentZonesOf m p := by
          simp [get_user_current_zones, check_location_user_states]
        rw [this] at hmem
        exact hmem
      have hkey : zid ∈ m.zones.map Prod.fst := by
        obtain ⟨kz, hk, hfst⟩ := List.mem_map.mp hcz
        exact List.mem_map.mpr ⟨kz, (List.mem_filter.mp hk).1, hfst⟩
      exact absurd hnone (by rw [lookup_eq_none_iff]; simp [hkey])

/-- The post-delete state used to witness C7: the subject `u` still has
`"A"` in its current-zone set but the registry no longer has zone `"A"`. -/
def C7m : GeofenceManager :=
  { zones := []
    user_states := fun u =>
      if u = "u" then
        some { current_zones := ["A"], last_location := none, last_check := none }
      else none
    event_history := [] }

/-- Witness for C7 on the concrete post-delete state `C7m`. -/
theorem C7_deleted_zone_witness :
    (delete_zone C7m "A").2.event_history = C7m.event_history ∧
    (delete_zone C7m "A").2.user_states = C7m.user_states ∧
    ((∀ e ∈ (check_location C7m "u" ⟨0, 0⟩ 0).1,
        e.trigger_type = TriggerType.EXIT → e.zone_id ≠ "A") ∧
      "A" ∉ get_user_current_zones (check_location C7m "u" ⟨0, 0⟩ 0).2 "u") :=
  ⟨(C7_deleted_zone_no_exit C7m "A" "u" ⟨0, 0⟩ 0).1,
   (C7_deleted_zone_no_exit C7m "A" "u" ⟨0, 0⟩ 0).2.1,
   (C7_deleted_zone_no_exit C7m "A" "u" ⟨0, 0⟩ 0).2.2 rfl⟩

/-! ## A concrete scenario: one circular zone of radius `6371000·π/2`
centered at the origin of the equator, Enter trigger only.  The points
`(0,0)` (center), `(0,90)` (exactly on the boundary) and `(0,180)`
(strictly outside) have exactly computable haversine distances. -/

/-- Scenario zone `A`. -/
def zoneA : GeofenceZone :=
  { zone_id := "A"
    name := "Zone A"
    fence_type := FenceType.CIRCULAR
    center := ⟨0, 0⟩
    radius := some (6371000 * Real.pi / 2)
    bounds := none
    location_ids := []
    triggers := [TriggerType.ENTER] }

/-- Scenario manager holding only zone `A`. -/
def mA : GeofenceManager :=
  { zones := [("A", zoneA)], user_states := fun _ => none, event_history := [] }

theorem inzone_center : is_point_in_zone ⟨0, 0⟩ zoneA = true := by
  simp only [is_point_in_zone, zoneA, point_in_circle, haversine_self,
    decide_eq_true_eq]
  positivity

theorem inzone_boundary : is_point_in_zone ⟨0, 90⟩ zoneA = true := by
  simp only [is_point_in_zone, zoneA, point_in_circle, haversine_equator90,
    decide_eq_true_eq]
  exact le_refl _

theorem notin_far : is_point_in_zone ⟨0, 180⟩ zoneA = false := by
  simp only [is_point_in_zone, zoneA, point_in_circle, haversine_equator180,
    decide_eq_false_iff_not, not_le]
  linarith [Real.pi_pos]

theorem insideZones_mA_center : insideZones mA ⟨0, 0⟩ = [("A", zoneA)] := by
  simp [insideZones, mA, List.filter, inzone_center]

theorem insideZones_mA_boundary : insideZones mA ⟨0, 90⟩ = [("A", zoneA)] := by
  simp [insideZones, mA, List.filter, inzone_boundary]

/-- First report of a fresh user at the center of zone `A`: one Enter
event, appended to the history, and the user state records `["A"]`. -/
theorem check_mA_center (u : String) (t : ℚ) :
    (check_location mA u ⟨0, 0⟩ t).1 = [enterEvent u zoneA ⟨0, 0⟩ t] ∧
    (check_location mA u ⟨0, 0⟩ t).2.event_history = [enterEvent u zoneA ⟨0, 0⟩ t] ∧
    (check_location mA u ⟨0, 0⟩ t).2.user_states u =
      some { current_zones := ["A"], last_location := some ⟨0, 0⟩, last_check := some t } := by
  have hprev : (userStateOrInit mA u).current_zones = [] := rfl
  have hfst : (check_location mA u ⟨0, 0⟩ t).1 = [enterEvent u zoneA ⟨0, 0⟩ t] := by
    rw [check_location_fst, hprev]
    have henter : enterEventsOf mA u ⟨0, 0⟩ t [] = [enterEvent u zoneA ⟨0, 0⟩ t] := by
      rw [enterEventsOf, insideZones_mA_center]
      simp [List.filter, zoneA]
    have hexit : exitEventsOf mA u ⟨0, 0⟩ t [] (currentZonesOf mA ⟨0, 0⟩) = [] := rfl
    rw [henter, hexit, List.append_nil]
  refine ⟨hfst, ?_, ?_⟩
  · rw [check_location_history, hfst]
    rfl
  · rw [check_location_user_states, if_pos rfl, currentZonesOf, insideZones_mA_center]
    rfl

/-! ## Claim C9 -/

/-- Counterexample to claim C9: an event emitted at the very clock tick
of the query (`timestamp = now`) is *returned* by
`get_event_history ... hours=0`, because the filter keeps events with
`timestamp ≥ cutoff` and `cutoff = now`.  So `hours=0` does not return
the empty sequence immediately after an emission in the same tick. -/
theorem C9_counterexample :
    get_event_history (check_location mA "u" ⟨0, 0⟩ 100).2 100 none none 0 =
      [enterEvent "u" zoneA ⟨0, 0⟩ 100] ∧
    [enterEvent "u" zoneA ⟨0, 0⟩ 100] ≠ ([] : List GeofenceEvent) := by
  constructor
  · rw [get_event_history, (check_mA_center "u" 100).2.1]
    norm_num [List.filter, strTruthy, enterEvent]
  · simp

/-- Claim C9 amended: with `hours = 0`, `get_event_history` returns the
empty sequence provided every stored event is stamped *strictly* before
the query instant (an event stamped exactly at the query instant is
kept); and in general the result is always a sub-list of the history —
a total function that returns an empty list rather than an error when
nothing matches. -/
theorem C9_history_amended (m : GeofenceManager) (now : ℚ) (uid zid : Option String)
    (hours : ℤ) :
    ((∀ e ∈ m.event_history, e.timestamp < now) →
      get_event_history m now uid zid 0 = []) ∧
    (get_event_history m now uid zid hours).Sublist m.event_history := by
  constructor
  · intro h
    rw [get_event_history]
    apply List.filter_eq_nil_iff.mpr
    intro e he hp
    simp only [Bool.and_eq_true, Bool.not_eq_true', decide_eq_false_iff_not] at hp
    exact hp.1.1 (by simpa using h e he)
  · exact List.filter_sublist _

/-- The event and manager used to witness the amended C9. -/
def C9wEvent : GeofenceEvent :=
  { event_id := "e"
    zone_id := "A"
    trigger_type := TriggerType.ENTER
    user_location := ⟨0, 0⟩
    timestamp := 50
    user_id := some "u" }

def C9wm : GeofenceManager :=
  { zones := [], user_states := fun _ => none, event_history := [C9wEvent] }

/-- Witness for the amended C9: with every stored event strictly in the
past, `hours=0` yields the empty list. -/
theorem C9_history_witness :
    get_event_history C9wm 100 none none 0 = [] ∧
    (get_event_history C9wm 100 none none 24).Sublist C9wm.event_history :=
  ⟨(C9_history_amended C9wm 100 none none 24).1
    (by
      intro e he
      simp only [C9wm, List.mem_singleton] at he
      rw [he, C9wEvent]
      norm_num),
   (C9_history_amended C9wm 100 none none 24).2⟩

/-! ## Claim C4: the duplicate-id trace.
The subject enters zone `A` at tick `5`, leaves it (no Exit trigger on
`A`), and re-enters it within the same tick `5`.  Both Enter events get
the event id `"u_A_" ++ timeString 5`. -/

def C4m1 : GeofenceManager := (check_location mA "u" ⟨0, 0⟩ 5).2

def C4m2 : GeofenceManager := (check_location C4m1 "u" ⟨0, 180⟩ 5).2

def C4m3 : GeofenceManager := (check_location C4m2 "u" ⟨0, 90⟩ 5).2

theorem C4m1_zones : C4m1.zones = [("A", zoneA)] := rfl

theorem insideZones_C4m1_far : insideZones C4m1 ⟨0, 180⟩ = [] := by
  rw [insideZones, C4m1_zones]
  simp [List.filter, notin_far]

theorem C4_trace_m2 :
    C4m2.event_history = [enterEvent "u" zoneA ⟨0, 0⟩ 5] ∧
    C4m2.user_states "u" =
      some { current_zones := [], last_location := some ⟨0, 180⟩, last_check := some 5 } := by
  have hstates := (check_mA_center "u" 5).2.2
  have hprev : (userStateOrInit C4m1 "u").current_zones = ["A"] := by
    rw [userStateOrInit,
      show C4m1.user_states "u" =
        some { current_zones := ["A"], last_location := some ⟨0, 0⟩,
               last_check := some 5 } from hstates]
    rfl
  have hcur : currentZonesOf C4m1 ⟨0, 180⟩ = [] := by
    rw [currentZonesOf, insideZones_C4m1_far]
    rfl
  have hev : (check_location C4m1 "u" ⟨0, 180⟩ 5).1 = [] := by
    rw [check_location_fst, hprev]
    have henter : enterEventsOf C4m1 "u" ⟨0, 180⟩ 5 ["A"] = [] := by
      rw [enterEventsOf, insideZones_C4m1_far]
      rfl
    have hexit : exitEventsOf C4m1 "u" ⟨0, 180⟩ 5 ["A"] (currentZonesOf C4m1 ⟨0, 180⟩) = [] := by
      rw [hcur, exitEventsOf]
      simp [C4m1_zones, List.lookup, zoneA]
    rw [henter, hexit]
    rfl
  constructor
  · show (check_location C4m1 "u" ⟨0, 180⟩ 5).2.event_history = _
    rw [check_location_history, hev, List.append_nil]
    exact (check_mA_center "u" 5).2.1
  · show (check_location C4m1 "u" ⟨0, 180⟩ 5).2.user_states "u" = _
    rw [check_location_user_states, if_pos rfl, hcur]

/-- Counterexample to claim C4: after the enter / leave / re-enter trace
within one clock tick, the history holds two *distinct* events (their
positions differ) with *identical* `event_id`. -/
theorem C4_counterexample :
    C4m3.event_history =
      [enterEvent "u" zoneA ⟨0, 0⟩ 5, enterEvent "u" zoneA ⟨0, 90⟩ 5] ∧
    enterEvent "u" zoneA ⟨0, 0⟩ 5 ≠ enterEvent "u" zoneA ⟨0, 90⟩ 5 ∧
    (enterEvent "u" zoneA ⟨0, 0⟩ 5).event_id =
      (enterEvent "u" zoneA ⟨0, 90⟩ 5).event_id := by
  have hm2 := C4_trace_m2
  have hprev : (userStateOrInit C4m2 "u").current_zones = [] := by
    rw [userStateOrInit, hm2.2]
    rfl
  have hzones : C4m2.zones = [("A", zoneA)] := rfl
  have hinside : insideZones C4m2 ⟨0, 90⟩ = [("A", zoneA)] := by
    rw [insideZones, hzones]
    simp [List.filter, inzone_boundary]
  have hev : (check_location C4m2 "u" ⟨0, 90⟩ 5).1 = [enterEvent "u" zoneA ⟨0, 90⟩ 5] := by
    rw [check_location_fst, hprev]
    have henter : enterEventsOf C4m2 "u" ⟨0, 90⟩ 5 [] = [enterEvent "u" zoneA ⟨0, 90⟩ 5] := by
      rw [enterEventsOf, hinside]
      simp [List.filter, zoneA]
    have hexit : exitEventsOf C4m2 "u" ⟨0, 90⟩ 5 [] (currentZonesOf C4m2 ⟨0, 90⟩) = [] := rfl
    rw [henter, hexit, List.append_nil]
  refine ⟨?_, ?_, rfl⟩
  · show (check_location C4m2 "u" ⟨0, 90⟩ 5).2.event_history = _
    rw [check_location_history, hev, hm2.1]
    rfl
  · intro h
    have h1 := congrArg GeofenceEvent.user_location h
    have h2 := congrArg Coordinates.longitude h1
    norm_num [enterEvent] at h2

/-! ## Event-id formatting lemmas (for the amended C4) -/

theorem rev_core (z1 z2 tr : List Char) (hx : 'x' ∉ tr) :
    tr ++ '_' :: z1 ≠ 't' :: 'i' :: 'x' :: 'e' :: '_' :: (tr ++ '_' :: z2) := by
  intro h
  match tr, hx with
  | [], _ =>
    rw [List.nil_append, List.cons.injEq] at h
    exact absurd h.1 (by decide)
  | [a], _ =>
    simp only [List.cons_append, List.nil_append, List.cons.injEq] at h
    exact absurd h.2.1 (by decide)
  | [a, b], _ =>
    simp only [List.cons_append, List.nil_append, List.cons.injEq] at h
    exact absurd h.2.2.1 (by decide)
  | a :: b :: c :: tr3, hx =>
    simp only [List.cons_append, List.cons.injEq] at h
    exact hx (by rw [h.2.2.1]; simp)

theorem enter_ne_exit_data (z1 z2 t : List Char) (hx : 'x' ∉ t) :
    z1 ++ '_' :: t ≠ z2 ++ '_' :: (t ++ ['_', 'e', 'x', 'i', 't']) := by
  intro h
  apply rev_core z1.reverse z2.reverse t.reverse (by simpa using hx)
  have hrev := congrArg List.reverse h
  simpa [List.reverse_append] using hrev

/-- Two distinct zone ids give two distinct Enter event ids (same user,
same timestamp rendering). -/
theorem enterId_inj (u z1 z2 ts : String)
    (h : u ++ "_" ++ z1 ++ "_" ++ ts = u ++ "_" ++ z2 ++ "_" ++ ts) : z1 = z2 := by
  have hd := congrArg String.data h
  simp only [String.data_append, List.append_assoc] at hd
  exact congrArg String.mk (by simpa using hd)

/-- Two distinct zone ids give two distinct Exit event ids. -/
theorem exitId_inj (u z1 z2 ts : String)
    (h : u ++ "_" ++ z1 ++ "_" ++ ts ++ "_exit" = u ++ "_" ++ z2 ++ "_" ++ ts ++ "_exit") :
    z1 = z2 := by
  have hd := congrArg String.data h
  simp only [String.data_append, List.append_assoc] at hd
  exact congrArg String.mk (by simpa using hd)

/-- An Enter event id is never equal to an Exit event id of the same
call, provided the rendered timestamp contains no `'x'`. -/
theorem enterId_ne_exitId (u z1 z2 ts : String) (hx : 'x' ∉ ts.data) :
    u ++ "_" ++ z1 ++ "_" ++ ts ≠ u ++ "_" ++ z2 ++ "_" ++ ts ++ "_exit" := by
  intro h
  have hd := congrArg String.data h
  simp only [String.data_append, List.append_assoc] at hd
  have h2 := List.append_cancel_left hd
  apply enter_ne_exit_data z1.data z2.data ts.data hx
  simpa using h2

/-- Claim C4 amended: *within a single* `check_location` call the
emitted events carry pairwise-distinct `event_id`s (under the registry
invariants: duplicate-free zone ids, duplicate-free stored current-zone
list, and a rendered timestamp free of the character `'x'` — true of
every decimal timestamp rendering).  Uniqueness does NOT extend across
calls in the same clock tick (see the counterexample). -/
theorem C4_event_ids_amended (m : GeofenceManager) (u : String) (p : Coordinates) (t : ℚ)
    (hkeys : (m.zones.map (fun kz => kz.2.zone_id)).Nodup)
    (hprev : (userStateOrInit m u).current_zones.Nodup)
    (hx : 'x' ∉ (timeString t).data) :
    (((check_location m u p t).1).map GeofenceEvent.event_id).Nodup := by
  rw [check_location_fst, List.map_append]
  have henter :
      (enterEventsOf m u p t (userStateOrInit m u).current_zones).map GeofenceEvent.event_id =
      (((insideZones m p).filter (fun kz =>
          decide (kz.1 ∉ (userStateOrInit m u).current_zones ∧
            TriggerType.ENTER ∈ kz.2.triggers))).map (fun kz => kz.2.zone_id)).map
        (fun z => u ++ "_" ++ z ++ "_" ++ timeString t) := by
    rw [enterEventsOf, List.map_map, List.map_map]
    rfl
  have hexit :
      (exitEventsOf m u p t (userStateOrInit m u).current_zones (currentZonesOf m p)).map
        GeofenceEvent.event_id =
      (userStateOrInit m u).current_zones.filterMap (fun zid =>
        (if zid ∈ currentZonesOf m p then none
         else
           match m.zones.lookup zid with
           | none => none
           | some zone =>
             if TriggerType.EXIT ∈ zone.triggers then some (exitEvent u zid p t)
             else none).map GeofenceEvent.event_id) := by
    rw [exitEventsOf, List.map_filterMap]
  have hshape : ∀ zid e,
      (if zid ∈ currentZonesOf m p then none
       else
         match m.zones.lookup zid with
         | none => none
         | some zone =>
           if TriggerType.EXIT ∈ zone.triggers then some (exitEvent u zid p t)
           else none) = some e → e = exitEvent u zid p t := by
    intro zid e h
    by_cases hc : zid ∈ currentZonesOf m p
    · rw [if_pos hc] at h
      exact Option.noConfusion h
    · rw [if_neg hc] at h
      cases hl : m.zones.lookup zid with
      | none =>
        rw [hl] at h
        exact Option.noConfusion h
      | some zone =>
        rw [hl] at h
        change (if TriggerType.EXIT ∈ zone.triggers then some (exitEvent u zid p t)
          else none) = some e at h
        by_cases ht : TriggerType.EXIT ∈ zone.triggers
        · rw [if_pos ht] at h
          exact (Option.some.inj h).symm
        · rw [if_neg ht] at h
          exact Option.noConfusion h
  have hfieldnodup : (((insideZones m p).filter (fun kz =>
      decide (kz.1 ∉ (userStateOrInit m u).current_zones ∧
        TriggerType.ENTER ∈ kz.2.triggers))).map (fun kz => kz.2.zone_id)).Nodup :=
    List.Nodup.sublist
      (List.Sublist.map _ ((List.filter_sublist _).trans (List.filter_sublist _))) hkeys
  have henternodup := List.Nodup.map
    (fun z1 z2 h => enterId_inj u z1 z2 (timeString t) h) hfieldnodup
  have hexitnodup : ((userStateOrInit m u).current_zones.filterMap (fun zid =>
      (if zid ∈ currentZonesOf m p then none
       else
         match m.zones.lookup zid with
         | none => none
         | some zone =>
           if TriggerType.EXIT ∈ zone.triggers then some (exitEvent u zid p t)
           else none).map GeofenceEvent.event_id)).Nodup := by
    apply List.Nodup.filterMap ?_ hprev
    intro a a' b hb hb'
    rw [Option.mem_def, Option.map_eq_some'] at hb hb'
    obtain ⟨e, he, hbe⟩ := hb
    obtain ⟨e', he', hbe'⟩ := hb'
    rw [hshape a e he] at hbe
    rw [hshape a' e' he'] at hbe'
    exact exitId_inj u a a' (timeString t) (hbe.trans hbe'.symm)
  rw [henter, hexit]
  apply List.Nodup.append henternodup hexitnodup
  intro a ha hb
  obtain ⟨z1, -, haz⟩ := List.mem_map.mp ha
  obtain ⟨zid, -, hg⟩ := List.mem_filterMap.mp hb
  rw [Option.map_eq_some'] at hg
  obtain ⟨e, he, hbe⟩ := hg
  rw [hshape zid e he] at hbe
  exact enterId_ne_exitId u z1 zid (timeString t) hx (haz.trans hbe.symm)

/-- Witness for the amended C4 at the concrete scenario:
the first report of user `"u"` at the center of zone `A`. -/
theorem C4_event_ids_witness :
    (((check_location mA "u" ⟨0, 0⟩ 0).1).map GeofenceEvent.event_id).Nodup :=
  C4_event_ids_amended mA "u" ⟨0, 0⟩ 0 (by simp [mA, zoneA])
    (by simp [userStateOrInit, mA]) (by decide)

theorem mem_of_lookup_eq_some {l : List (String × GeofenceZone)} {k : String}
    {v : GeofenceZone} (h : l.lookup k = some v) : (k, v) ∈ l := by
  induction l with
  | nil => simp [List.lookup] at h
  | cons kz rest ih =>
    obtain ⟨a, b⟩ := kz
    by_cases hk : k = a
    · subst hk
      simp only [List.lookup, beq_self_eq_true, Option.some.injEq] at h
      rw [← h]
      exact List.mem_cons_self _ _
    · simp only [List.lookup, beq_false_of_ne hk] at h
      exact List.mem_cons_of_mem _ (ih h)

/-- Claim C10: a zone constructed with `triggers=None` gets exactly
`[ENTER]`; an explicitly supplied list (in particular, the empty one) is
preserved.  Consequently an `[ENTER]`-only zone never yields an Exit
event, an empty-trigger zone yields no event at all, and an entered
zone whose triggers include `ENTER` does yield its Enter event. -/
theorem C10_default_triggers (zone_id name : String) (ft : FenceType) (c : Coordinates)
    (rad : Option ℝ) (bnds : Option (List Coordinates)) (lids : Option (List String))
    (l : List TriggerType) (m : GeofenceManager) (u : String) (p : Coordinates) (t : ℚ)
    (zidq : String) :
    (mkGeofenceZone zone_id name ft c rad bnds lids none).triggers = [TriggerType.ENTER] ∧
    (mkGeofenceZone zone_id name ft c rad bnds lids (some l)).triggers = l ∧
    ((∀ kz ∈ m.zones, (kz.1 = zidq ∨ kz.2.zone_id = zidq) →
        TriggerType.EXIT ∉ kz.2.triggers) →
      ∀ e ∈ (check_location m u p t).1, e.zone_id = zidq →
        e.trigger_type ≠ TriggerType.EXIT) ∧
    ((∀ kz ∈ m.zones, (kz.1 = zidq ∨ kz.2.zone_id = zidq) → kz.2.triggers = []) →
      ∀ e ∈ (check_location m u p t).1, e.zone_id ≠ zidq) ∧
    (∀ kz ∈ m.zones, is_point_in_zone p kz.2 = true →
      kz.1 ∉ (userStateOrInit m u).current_zones →
      TriggerType.ENTER ∈ kz.2.triggers →
      enterEvent u kz.2 p t ∈ (check_location m u p t).1) := by
  refine ⟨rfl, rfl, ?_, ?_, ?_⟩
  · intro hyp e he hz hq
    rw [check_location_fst, List.mem_append] at he
    rcases he with he | he
    · have h1 := enterEventsOf_trigger he
      rw [hq] at h1
      exact TriggerType.noConfusion h1
    · obtain ⟨zid, zone, -, -, hl, ht, he_eq⟩ := exitEventsOf_mem.mp he
      rw [he_eq] at hz
      have hzz : zid = zidq := hz
      exact hyp (zid, zone) (mem_of_lookup_eq_some hl) (Or.inl hzz) ht
  · intro hyp e he hz
    rw [check_location_fst, List.mem_append] at he
    rcases he with he | he
    · obtain ⟨kz, hkz, -, htr, he_eq⟩ := enterEventsOf_mem.mp he
      rw [he_eq] at hz
      have hzz : kz.2.zone_id = zidq := hz
      have hmem : kz ∈ m.zones := (List.mem_filter.mp hkz).1
      have := hyp kz hmem (Or.inr hzz)
      rw [this] at htr
      exact List.not_mem_nil _ htr
    · obtain ⟨zid, zone, -, -, hl, ht, he_eq⟩ := exitEventsOf_mem.mp he
      rw [he_eq] at hz
      have hzz : zid = zidq := hz
      have := hyp (zid, zone) (mem_of_lookup_eq_some hl) (Or.inl hzz)
      rw [this] at ht
      exact List.not_mem_nil _ ht
  · intro kz hkz hin hnp htr
    rw [check_location_fst, List.mem_append]
    left
    exact enterEventsOf_mem.mpr ⟨kz, List.mem_filter.mpr ⟨hkz, hin⟩, hnp, htr, rfl⟩

/-- Witness for C10: concrete default resolution and the concrete
Enter-only scenario zone `A`. -/
theorem C10_default_triggers_witness :
    (mkGeofenceZone "w" "w" FenceType.CIRCULAR ⟨0, 0⟩ (some 1) none none none).triggers =
      [TriggerType.ENTER] ∧
    (mkGeofenceZone "w" "w" FenceType.CIRCULAR ⟨0, 0⟩ (some 1) none none
      (some [])).triggers = [] ∧
    (∀ e ∈ (check_location mA "w" ⟨0, 0⟩ 0).1, e.zone_id = "A" →
      e.trigger_type ≠ TriggerType.EXIT) ∧
    enterEvent "w" zoneA ⟨0, 0⟩ 0 ∈ (check_location mA "w" ⟨0, 0⟩ 0).1 := by
  have base := C10_default_triggers "w" "w" FenceType.CIRCULAR ⟨0, 0⟩ (some 1) none none
    [] mA "w" ⟨0, 0⟩ 0 "A"
  refine ⟨base.1, base.2.1, ?_, ?_⟩
  · apply base.2.2.1
    intro kz hkz hid
    have hkz' : kz = ("A", zoneA) := by simpa [mA] using hkz
    rw [hkz']
    simp [zoneA]
  · apply base.2.2.2.2 ("A", zoneA)
    · simp [mA]
    · exact inzone_center
    · simp [userStateOrInit, mA]
    · simp [zoneA]

/-! ## Claim C1 -/

/-- A circular zone so large (radius `6371000·π`) that every point of
the sphere is inside it; distance to its boundary is `0` everywhere. -/
def C1zone : GeofenceZone :=
  { zone_id := "C"
    name := "big circle"
    fence_type := FenceType.CIRCULAR
    center := ⟨0, 0⟩
    radius := some (6371000 * Real.pi)
    bounds := none
    location_ids := []
    triggers := [TriggerType.ENTER] }

def C1m : GeofenceManager :=
  { zones := [("C", C1zone)], user_states := fun _ => none, event_history := [] }

theorem C1_max_eq_zero :
    max 0 (6371000 * Real.pi / 2 - 6371000 * Real.pi) = 0 := by
  apply max_eq_left
  nlinarith [Real.pi_pos]

/-- Counterexample to claim C1: for a point strictly inside a large
circle (center distance `6371000·π/2 > 0`, boundary distance `0`),
`get_nearby_zones` pairs the zone with the *center* distance, not with
`max 0 (centerDistance − radius) = 0`. -/
theorem C1_counterexample :
    get_nearby_zones C1m ⟨0, 90⟩ 1000000000 = [(C1zone, 6371000 * Real.pi / 2)] ∧
    6371000 * Real.pi / 2 ≠ max 0 (6371000 * Real.pi / 2 - C1zone.radius.getD 0) := by
  constructor
  · simp only [get_nearby_zones, C1m, C1zone, List.filterMap_cons, List.filterMap_nil,
      haversine_equator90, Option.getD_some, eq_self_iff_true, if_true]
    rw [C1_max_eq_zero]
    norm_num [List.insertionSort, List.orderedInsert]
  · rw [show C1zone.radius.getD 0 = 6371000 * Real.pi from rfl, C1_max_eq_zero]
    exact ne_of_gt (by positivity)

instance nearbyRelTotal : IsTotal (GeofenceZone × ℝ) (fun a b => a.2 ≤ b.2) :=
  ⟨fun a b => le_total a.2 b.2⟩

instance nearbyRelTrans : IsTrans (GeofenceZone × ℝ) (fun a b => a.2 ≤ b.2) :=
  ⟨fun _ _ _ => le_trans⟩

/-- Claim C1 amended: every pair returned by `get_nearby_zones` carries
the haversine distance from the query point to the zone's *center* (for
circles included, even deep inside them); the boundary distance
`max 0 (centerDistance − radius)` is used only as the *inclusion*
threshold for circular zones; and the sequence is sorted ascending by
the paired center distance.  Every registered zone passing the
threshold appears in the result. -/
theorem C1_nearby_zones_amended (m : GeofenceManager) (p : Coordinates) (maxd : ℝ) :
    (∀ pr ∈ get_nearby_zones m p maxd, pr.2 = haversine_distance p pr.1.center) ∧
    List.Sorted (fun a b => a.2 ≤ b.2) (get_nearby_zones m p maxd) ∧
    (∀ pr ∈ get_nearby_zones m p maxd,
      (if pr.1.fence_type = FenceType.CIRCULAR then
        max 0 (pr.2 - pr.1.radius.getD 0)
       else pr.2) ≤ maxd) ∧
    (∀ kz ∈ m.zones,
      (if kz.2.fence_type = FenceType.CIRCULAR then
        max 0 (haversine_distance p kz.2.center - kz.2.radius.getD 0)
       else haversine_distance p kz.2.center) ≤ maxd →
      ∃ pr ∈ get_nearby_zones m p maxd, pr.1 = kz.2) := by
  have hf : ∀ (kz : String × GeofenceZone) (pr : GeofenceZone × ℝ),
      (if (if kz.2.fence_type = FenceType.CIRCULAR then
          max 0 (haversine_distance p kz.2.center - kz.2.radius.getD 0)
        else haversine_distance p kz.2.center) ≤ maxd then
        some (kz.2, haversine_distance p kz.2.center) else none) = some pr →
      pr = (kz.2, haversine_distance p kz.2.center) ∧
      (if kz.2.fence_type = FenceType.CIRCULAR then
        max 0 (haversine_distance p kz.2.center - kz.2.radius.getD 0)
       else haversine_distance p kz.2.center) ≤ maxd := by
    intro kz pr h
    by_cases hc : (if kz.2.fence_type = FenceType.CIRCULAR then
        max 0 (haversine_distance p kz.2.center - kz.2.radius.getD 0)
      else haversine_distance p kz.2.center) ≤ maxd
    · rw [if_pos hc] at h
      exact ⟨(Option.some.inj h).symm, hc⟩
    · rw [if_neg hc] at h
      exact Option.noConfusion h
  have hperm : List.Perm (get_nearby_zones m p maxd)
      (m.zones.filterMap (fun kz =>
        if (if kz.2.fence_type = FenceType.CIRCULAR then
            max 0 (haversine_distance p kz.2.center - kz.2.radius.getD 0)
          else haversine_distance p kz.2.center) ≤ maxd then
          some (kz.2, haversine_distance p kz.2.center) else none)) :=
    List.perm_insertionSort _ _
  refine ⟨?_, ?_, ?_, ?_⟩
  · intro pr hpr
    obtain ⟨kz, -, hkz⟩ := List.mem_filterMap.mp (hperm.mem_iff.mp hpr)
    rw [(hf kz pr hkz).1]
  · exact List.sorted_insertionSort _ _
  · intro pr hpr
    obtain ⟨kz, -, hkz⟩ := List.mem_filterMap.mp (hperm.mem_iff.mp hpr)
    obtain ⟨hpr_eq, hle⟩ := hf kz pr hkz
    rw [hpr_eq]
    exact hle
  · intro kz hkz hle
    refine ⟨(kz.2, haversine_distance p kz.2.center), ?_, rfl⟩
    apply hperm.mem_iff.mpr
    exact List.mem_filterMap.mpr ⟨kz, hkz, by rw [if_pos hle]⟩

/-- Witness for the amended C1 at the concrete one-zone manager. -/
theorem C1_nearby_zones_witness :
    (∀ pr ∈ get_nearby_zones C1m ⟨0, 90⟩ 1000000000,
      pr.2 = haversine_distance ⟨0, 90⟩ pr.1.center) ∧
    List.Sorted (fun a b => a.2 ≤ b.2) (get_nearby_zones C1m ⟨0, 90⟩ 1000000000) ∧
    (∀ pr ∈ get_nearby_zones C1m ⟨0, 90⟩ 1000000000,
      (if pr.1.fence_type = FenceType.CIRCULAR then
        max 0 (pr.2 - pr.1.radius.getD 0)
       else pr.2) ≤ 1000000000) ∧
    (∀ kz ∈ C1m.zones,
      (if kz.2.fence_type = FenceType.CIRCULAR then
        max 0 (haversine_distance ⟨0, 90⟩ kz.2.center - kz.2.radius.getD 0)
       else haversine_distance ⟨0, 90⟩ kz.2.center) ≤ 1000000000 →
      ∃ pr ∈ get_nearby_zones C1m ⟨0, 90⟩ 1000000000, pr.1 = kz.2) :=
  C1_nearby_zones_amended C1m ⟨0, 90⟩ 1000000000

end Geofence
